import Mathlib

/-!
Verification of the crew RAG pipeline (employee-handbook question answering).

The Python sources are shallowly embedded: pure data transformations become
Lean functions, the external embedding model and the vector-index distance
metric are abstracted into an `Env` record, the ChromaDB client state becomes
an explicit name-to-collection map, and fallible operations return
`Option`/`Except`.
-/

namespace RAGModel

/-- External collaborators: the embedding backend (model name → text → vector)
and the distance metric the similarity index uses between vectors. -/
structure Env (V : Type) where
  embedModel : String → String → V
  distance : V → V → ℚ

/-- Metadata dictionary of a LangChain `Document` as this pipeline populates
it: `«条款»` (clause identifier) and `«来源»` (source label) are written by
`chunk`, and `embedding` is written later by `embed`.  Fields are `Option`
because downstream code reads them with dictionary `.get` defaults. -/
structure DocMeta (V : Type) where
  «条款» : Option String
  «来源» : Option String
  embedding : Option V
  deriving DecidableEq

/-- LangChain `Document`: page content plus metadata. -/
structure Document (V : Type) where
  page_content : String
  metadata : DocMeta V
  deriving DecidableEq

/-- The constant source label `chunk` attaches (`"员工手册"`). -/
def sourceLabel : String := "员工手册"

/-- The `Document` built for one `(key, value)` pair of a clause mapping
(`chunk.py` lines 41-46). -/
def mkClauseDoc {V : Type} (kv : String × String) : Document V :=
  { page_content := kv.2
    metadata := { «条款» := some kv.1, «来源» := some sourceLabel, embedding := none } }

/-- `chunk` (`chunk.py`): for each entry of the JSON array, for each
key/value pair of that entry, append one `Document`.  Entries are modelled as
association lists to keep the (insertion-ordered) dict iteration order. -/
def chunk {V : Type} (json_data : List (List (String × String))) : List (Document V) :=
  json_data.foldl
    (fun documents item =>
      item.foldl (fun documents kv => documents ++ [mkClauseDoc kv]) documents)
    []

/-- `embed` (`embedding.py`): load the embedding model named `model_path`,
embed every document's text in order, and store vector `i` into document
`i`'s metadata. -/
def embed {V : Type} (env : Env V) (documents : List (Document V))
    (model_path : String := "BAAI/bge-large-zh-v1.5") : List (Document V) :=
  let embedding_model := env.embedModel model_path
  let texts := documents.map (fun doc => doc.page_content)
  let embeddings := texts.map embedding_model
  (documents.zip embeddings).map
    (fun de => { de.1 with metadata := { de.1.metadata with embedding := some de.2 } })

/- ### Helper lemmas about `chunk` -/

theorem foldl_append_singleton {α β : Type} (f : α → β) :
    ∀ (l : List α) (acc : List β),
      l.foldl (fun documents kv => documents ++ [f kv]) acc = acc ++ l.map f := by
  intro l
  induction l with
  | nil => intro acc; simp
  | cons x xs ih =>
      intro acc
      simp [List.foldl_cons, ih, List.append_assoc]

theorem foldl_append_map {V : Type} :
    ∀ (l : List (List (String × String))) (acc : List (Document V)),
      l.foldl (fun documents item => documents ++ item.map mkClauseDoc) acc =
        acc ++ l.flatMap (fun item => item.map (mkClauseDoc (V := V))) := by
  intro l
  induction l with
  | nil => intro acc; simp
  | cons x xs ih =>
      intro acc
      simp [List.foldl_cons, ih, List.append_assoc]

theorem chunk_eq_flatMap {V : Type} (json_data : List (List (String × String))) :
    chunk (V := V) json_data =
      json_data.flatMap (fun item => item.map (mkClauseDoc (V := V))) := by
  unfold chunk
  rw [List.foldl_ext (g := fun documents item => documents ++ item.map mkClauseDoc)]
  · simpa using foldl_append_map json_data []
  · intro a b _
    exact foldl_append_singleton mkClauseDoc b a

/- ### Vector database (`vector_db.py`) -/

/-- Metadata persisted with an index entry: the document metadata with the
`embedding` key excluded (`vector_db.py` line 70). -/
structure IndexMeta where
  «条款» : Option String
  «来源» : Option String
  deriving DecidableEq

/-- Drop the `embedding` key from a metadata dictionary
(the comprehension `{k: v for k, v in doc.metadata.items() if k != 'embedding'}`). -/
def dropEmbedding {V : Type} (m : DocMeta V) : IndexMeta :=
  { «条款» := m.«条款», «来源» := m.«来源» }

/-- One persisted record of a ChromaDB collection: id, text, vector, metadata. -/
structure Entry (V : Type) where
  id : String
  document : String
  embedding : V
  metadata : IndexMeta
  deriving DecidableEq

/-- A named ChromaDB collection. -/
structure Collection (V : Type) where
  name : String
  entries : List (Entry V)
  deriving DecidableEq

/-- The ChromaDB client state: a map from collection name to collection. -/
def Store (V : Type) : Type := String → Option (Collection V)

/-- `client.delete_collection` wrapped in `try/except: pass`: removing a
collection that does not exist is a no-op, not an error. -/
def delete_collection {V : Type} (store : Store V) (name : String) : Store V :=
  fun n => if n = name then none else store n

/-- The fixed collection name used by `build_vector_db`. -/
def collection_name : String := "employee_handbook"

/-- The embeddings list comprehension
`[doc.metadata['embedding'] for doc in documents]`; a missing `embedding` key
raises (`none`). -/
def collectEmbeddings {V : Type} : List (Document V) → Option (List V)
  | [] => some []
  | d :: ds =>
      match d.metadata.embedding, collectEmbeddings ds with
      | some e, some es => some (e :: es)
      | _, _ => none

/-- `collection.add(ids, documents, embeddings, metadatas)`: zip the four
parallel lists into entries. -/
def addRecords {V : Type} (ids texts : List String) (embeddings : List V)
    (metadatas : List IndexMeta) : List (Entry V) :=
  ((ids.zip texts).zip (embeddings.zip metadatas)).map
    (fun p => { id := p.1.1, document := p.1.2, embedding := p.2.1, metadata := p.2.2 })

/-- `build_vector_db` (`vector_db.py`): delete any prior collection named
`employee_handbook` (absence is not an error), create a fresh one, and add
every document keyed by the synthetic ids `doc_0`, `doc_1`, ….  Returns the
updated client state and the built collection; `none` models the `KeyError`
raised when a document lacks an `embedding` key. -/
def build_vector_db {V : Type} (store : Store V) (documents : List (Document V)) :
    Option (Store V × Collection V) :=
  let store1 := delete_collection store collection_name
  let ids := (List.range documents.length).map (fun i => "doc_" ++ toString i)
  let texts := documents.map (fun doc => doc.page_content)
  match collectEmbeddings documents with
  | none => none
  | some embeddings =>
      let metadatas := documents.map (fun doc => dropEmbedding doc.metadata)
      let collection : Collection V :=
        { name := collection_name
          entries := addRecords ids texts embeddings metadatas }
      some (fun n => if n = collection_name then some collection else store1 n, collection)

/- ### The similarity query and the retriever (`retriever.py`) -/

/-- One row of a ChromaDB query result (parallel ids / documents / metadatas /
distances lists, here zipped). -/
structure QueryRow (V : Type) where
  id : String
  document : String
  metadata : IndexMeta
  distance : ℚ
  deriving DecidableEq

/-- Modelled from the spec: the external similarity index's nearest-neighbor
query (`chromadb.Collection.query`), which the repository uses as a black box.
Per the spec it returns results in ascending-distance order, returns all
entries when the collection holds fewer than `n_results`, and rejects a
non-positive `n_results` as a caller error. -/
def collection_query {V : Type} (env : Env V) (c : Collection V)
    (query_embedding : V) (n_results : Int) : Except String (List (QueryRow V)) :=
  if n_results ≤ 0 then
    Except.error "Number of requested results must be a positive integer"
  else
    let rows := c.entries.map (fun e =>
      QueryRow.mk e.id e.document e.metadata (env.distance query_embedding e.embedding))
    Except.ok
      ((rows.insertionSort (fun a b => a.distance ≤ b.distance)).take n_results.toNat)

/-- Metadata of a retrieved document as `retrieve` rebuilds it:
`条款` and `来源` read with default `"N/A"`, plus the raw distance. -/
structure RetrievedMeta where
  «条款» : String
  «来源» : String
  distance : ℚ
  deriving DecidableEq

/-- A `Document` as returned by `retrieve`. -/
structure RetrievedDoc where
  page_content : String
  metadata : RetrievedMeta
  deriving DecidableEq

/-- The `Document` `retrieve` builds from one query-result row
(`retriever.py` lines 60-69). -/
def rowToDoc {V : Type} (r : QueryRow V) : RetrievedDoc :=
  { page_content := r.document
    metadata :=
      { «条款» := r.metadata.«条款».getD "N/A"
        «来源» := r.metadata.«来源».getD "N/A"
        distance := r.distance } }

/-- `retrieve` (`retriever.py`) with its hardcoded query-embedding model
generalized into a parameter, for stating which model the real `retrieve`
uses. -/
def retrieveWithModel {V : Type} (env : Env V) (model_path : String)
    (vector_db : Collection V) (query : String) (k : Int) :
    Except String (List RetrievedDoc) :=
  let embedding_model := env.embedModel model_path
  let query_embedding := embedding_model query
  match collection_query env vector_db query_embedding k with
  | Except.error e => Except.error e
  | Except.ok results => Except.ok (results.map rowToDoc)

/-- `retrieve` (`retriever.py`): embed the query with the hardcoded
`"BAAI/bge-large-zh-v1.5"` model, run the nearest-neighbor query with
`n_results = k`, and convert each result row into a `Document` annotated
with clause identifier, source label, and raw distance. -/
def retrieve {V : Type} (env : Env V) (vector_db : Collection V) (query : String)
    (k : Int := 3) : Except String (List RetrievedDoc) :=
  let embedding_model := env.embedModel "BAAI/bge-large-zh-v1.5"
  let query_embedding := embedding_model query
  match collection_query env vector_db query_embedding k with
  | Except.error e => Except.error e
  | Except.ok results => Except.ok (results.map rowToDoc)

/-- The query vector `retrieve` computes for a query string. -/
def queryVector {V : Type} (env : Env V) (query : String) : V :=
  env.embedModel "BAAI/bge-large-zh-v1.5" query

/-- The query-result row corresponding to an index entry, for a given query
vector. -/
def entryRow {V : Type} (env : Env V) (qv : V) (e : Entry V) : QueryRow V :=
  QueryRow.mk e.id e.document e.metadata (env.distance qv e.embedding)

/-- C1: for every index handle, query string, and positive `k`, `retrieve`
returns `Except.ok` with exactly `min k (number of entries)` results, ordered
ascending by distance, each annotated with its clause identifier, source
label, and raw distance from an actual index entry; when the index has at
most `k` entries it returns all of them (as a permutation of the annotated
entry list), with no error. -/
theorem c1_retrieve_k_nearest {V : Type} (env : Env V) (db : Collection V)
    (query : String) (k : Int) (hk : 0 < k) :
    ∃ docs : List RetrievedDoc,
      retrieve env db query k = Except.ok docs
      ∧ docs.length = min k.toNat db.entries.length
      ∧ docs.Pairwise (fun a b => a.metadata.distance ≤ b.metadata.distance)
      ∧ (∀ d ∈ docs, ∃ e ∈ db.entries,
            d.page_content = e.document
            ∧ d.metadata.«条款» = e.metadata.«条款».getD "N/A"
            ∧ d.metadata.«来源» = e.metadata.«来源».getD "N/A"
            ∧ d.metadata.distance = env.distance (queryVector env query) e.embedding)
      ∧ (db.entries.length ≤ k.toNat →
          docs.Perm (db.entries.map (fun e => rowToDoc (entryRow env (queryVector env query) e)))) := by
  have hk0 : ¬ k ≤ 0 := not_le.mpr hk
  have hrw : retrieve env db query k =
      Except.ok ((((db.entries.map (fun e => entryRow env (queryVector env query) e)).insertionSort
        (fun a b => a.distance ≤ b.distance)).take k.toNat).map rowToDoc) := by
    simp [retrieve, collection_query, hk0, queryVector, entryRow]
  refine ⟨_, hrw, ?_, ?_, ?_, ?_⟩
  · simp [List.length_take, List.length_insertionSort]
  · have hs : ((db.entries.map (entryRow env (queryVector env query))).insertionSort
        (fun a b => a.distance ≤ b.distance)).Pairwise
        (fun a b : QueryRow V => a.distance ≤ b.distance) := by
      haveI : IsTotal (QueryRow V) (fun a b => a.distance ≤ b.distance) :=
        ⟨fun a b => le_total a.distance b.distance⟩
      haveI : IsTrans (QueryRow V) (fun a b => a.distance ≤ b.distance) :=
        ⟨fun a b c hab hbc => le_trans hab hbc⟩
      exact List.sorted_insertionSort _ _
    have ht := hs.sublist (List.take_sublist k.toNat _)
    exact List.pairwise_map.mpr (ht.imp (fun hab => hab))
  · intro d hd
    rcases List.mem_map.mp hd with ⟨r, hr, hrd⟩
    have hr2 : r ∈ (db.entries.map (entryRow env (queryVector env query))).insertionSort
        (fun a b => a.distance ≤ b.distance) :=
      List.mem_of_mem_take hr
    have hr3 : r ∈ db.entries.map (entryRow env (queryVector env query)) :=
      (List.perm_insertionSort _ _).mem_iff.mp hr2
    rcases List.mem_map.mp hr3 with ⟨e, he, hre⟩
    exact ⟨e, he, by simp [← hrd, ← hre, rowToDoc, entryRow]⟩
  · intro hle
    have hlen : ((db.entries.map (entryRow env (queryVector env query))).insertionSort
        (fun a b => a.distance ≤ b.distance)).length ≤ k.toNat := by
      simpa [List.length_insertionSort] using hle
    rw [List.take_of_length_le hlen]
    exact ((List.perm_insertionSort _ _).map rowToDoc).trans
      (by simp only [List.map_map]; rfl)

/-- Closed instantiation of `c1_retrieve_k_nearest`. -/
def envC : Env Int :=
  { embedModel := fun _ t => Int.ofNat t.length
    distance := fun a b => (((a - b) * (a - b) : Int) : ℚ) }

/-- A two-entry collection used to instantiate the theorems. -/
def dbC : Collection Int :=
  { name := collection_name
    entries :=
      [ { id := "doc_0", document := "试用期为三个月。", embedding := 24
          metadata := { «条款» := some "第一条", «来源» := some sourceLabel } }
      , { id := "doc_1", document := "工作时间每周五天。", embedding := 27
          metadata := { «条款» := some "第二条", «来源» := some sourceLabel } } ] }

theorem c1_retrieve_k_nearest_witness :
    (0 : Int) < 3 ∧
    ∃ docs : List RetrievedDoc,
      retrieve envC dbC "试用期多久" 3 = Except.ok docs
      ∧ docs.length = min (Int.toNat 3) dbC.entries.length
      ∧ docs.Pairwise (fun a b => a.metadata.distance ≤ b.metadata.distance)
      ∧ (∀ d ∈ docs, ∃ e ∈ dbC.entries,
            d.page_content = e.document
            ∧ d.metadata.«条款» = e.metadata.«条款».getD "N/A"
            ∧ d.metadata.«来源» = e.metadata.«来源».getD "N/A"
            ∧ d.metadata.distance = envC.distance (queryVector envC "试用期多久") e.embedding)
      ∧ (dbC.entries.length ≤ Int.toNat 3 →
          docs.Perm (dbC.entries.map (fun e => rowToDoc (entryRow envC (queryVector envC "试用期多久") e)))) :=
  ⟨by decide, c1_retrieve_k_nearest envC dbC "试用期多久" 3 (by decide)⟩

/-- C5: for every index handle and query string, calling `retrieve` with
`k = 0` or `k` negative is rejected with an error rather than returning a
result list (the rejection is raised by the underlying index query, which
`retrieve` propagates). -/
theorem c5_retrieve_rejects_nonpositive_k {V : Type} (env : Env V)
    (db : Collection V) (query : String) (k : Int) (hk : k ≤ 0) :
    retrieve env db query k =
      Except.error "Number of requested results must be a positive integer" := by
  simp [retrieve, collection_query, hk]

theorem c5_retrieve_rejects_nonpositive_k_witness :
    retrieve envC dbC "试用期多久" 0 =
      Except.error "Number of requested results must be a positive integer" :=
  c5_retrieve_rejects_nonpositive_k envC dbC "试用期多久" 0 (by decide)

/-- C3: for every ordered collection of `N` single-key mappings, `chunk`
produces exactly `N` units, in input order, each built by `mkClauseDoc` from
its entry's unique key/value pair — identifier unchanged, constant source
label, empty clause text preserved, no merging or splitting. -/
theorem c3_chunk_preserves_entries {V : Type} (json_data : List (List (String × String)))
    (h : ∀ item ∈ json_data, ∃ key value, item = [(key, value)]) :
    chunk (V := V) json_data =
      json_data.map (fun item => mkClauseDoc (item.headD ("", "")))
    ∧ (chunk (V := V) json_data).length = json_data.length := by
  have hgen : ∀ (l : List (List (String × String))),
      (∀ item ∈ l, ∃ key value, item = [(key, value)]) →
      l.flatMap (fun item => item.map (mkClauseDoc (V := V))) =
        l.map (fun item => mkClauseDoc (item.headD ("", ""))) := by
    intro l
    induction l with
    | nil => intro _; simp
    | cons x xs ih =>
        intro hl
        rcases hl x (List.mem_cons_self x xs) with ⟨key, value, rfl⟩
        rw [List.flatMap_cons, ih (fun item hitem => hl item (List.mem_cons_of_mem _ hitem))]
        simp
  have hmap : chunk (V := V) json_data =
      json_data.map (fun item => mkClauseDoc (item.headD ("", ""))) := by
    rw [chunk_eq_flatMap]
    exact hgen json_data h
  exact ⟨hmap, by rw [hmap]; simp⟩

theorem c3_chunk_preserves_entries_witness :
    chunk (V := Int) [[("第一条", "试用期为三个月。")], [("第二条", "")]] =
      [[("第一条", "试用期为三个月。")], [("第二条", "")]].map
        (fun item => mkClauseDoc (item.headD ("", "")))
    ∧ (chunk (V := Int) [[("第一条", "试用期为三个月。")], [("第二条", "")]]).length =
        ([[("第一条", "试用期为三个月。")], [("第二条", "")]] : List (List (String × String))).length :=
  c3_chunk_preserves_entries _
    (by
      intro item hitem
      simp only [List.mem_cons, List.not_mem_nil, or_false] at hitem
      rcases hitem with rfl | rfl
      · exact ⟨"第一条", "试用期为三个月。", rfl⟩
      · exact ⟨"第二条", "", rfl⟩)

/-- C9 (implicit): `chunk` produces one unit per key-value pair summed over
all entries, in iteration order: it equals the flattening of the per-pair
units, and its length is the total number of pairs (so an `m`-key entry
yields `m` units and an empty mapping yields zero). -/
theorem c9_chunk_one_unit_per_pair {V : Type} (json_data : List (List (String × String))) :
    chunk (V := V) json_data =
      json_data.flatMap (fun item => item.map (mkClauseDoc (V := V)))
    ∧ (chunk (V := V) json_data).length = (json_data.map List.length).sum := by
  refine ⟨chunk_eq_flatMap json_data, ?_⟩
  rw [chunk_eq_flatMap]
  simp [Function.comp_def]

/- ### Prompt composition (`main.py` steps 7-9 and `test.py` `generate_answers`) -/

/-- The two-field prompt template shared by `main.py` and `test.py`
(`"根据上下文回答问题：…"`), rendered with a context and a question. -/
def promptTemplate (context question : String) : String :=
  "根据上下文回答问题：\n\n上下文：\n" ++ context ++ "\n\n问题：" ++ question

/-- Python's `sep.join(parts)`. -/
def joinSep (sep : String) : List String → String
  | [] => ""
  | [x] => x
  | x :: y :: ys => x ++ sep ++ joinSep sep (y :: ys)

/-- The tagged rendering `f"【{doc.metadata['条款']}】{doc.page_content}"` of
one retrieved document (`main.py` step 7). -/
def tagPassage (doc : RetrievedDoc) : String :=
  "【" ++ doc.metadata.«条款» ++ "】" ++ doc.page_content

/-- The prompt the interactive loop sends (`main.py` steps 7-9): context is
the double-newline join of the tagged passages. -/
def composePromptMain (retrieved_docs : List RetrievedDoc) (query : String) : String :=
  let context := joinSep "\n\n" (retrieved_docs.map tagPassage)
  promptTemplate context query

/-- The prompt the evaluation harness sends (`test.py` `generate_answers`):
context is the double-newline join of the raw passage texts, without tags. -/
def composePromptTest (retrieved_docs : List RetrievedDoc) (question : String) : String :=
  let contexts := retrieved_docs.map (fun doc => doc.page_content)
  let context := joinSep "\n\n" contexts
  promptTemplate context question

/-- Retrieval plus prompt construction of the interactive path
(`main.py`, fixed `k = 3`). -/
def interactivePromptOf {V : Type} (env : Env V) (db : Collection V)
    (query : String) : Except String String :=
  match retrieve env db query 3 with
  | Except.error e => Except.error e
  | Except.ok docs => Except.ok (composePromptMain docs query)

/-- Retrieval plus prompt construction of the evaluation harness
(`test.py` `generate_answers`, called with `k = 3`). -/
def evalPromptOf {V : Type} (env : Env V) (db : Collection V)
    (question : String) : Except String String :=
  match retrieve env db question 3 with
  | Except.error e => Except.error e
  | Except.ok docs => Except.ok (composePromptTest docs question)

theorem data_append (a b : String) : (a ++ b).data = a.data ++ b.data := rfl

theorem string_eq_of_data_eq {a b : String} (h : a.data = b.data) : a = b := by
  cases a; cases b; exact congrArg String.mk h

/-- The rendered template determines its context field: with the question
fixed, two renderings are equal exactly when the contexts are. -/
theorem promptTemplate_inj_context (c₁ c₂ q : String) :
    promptTemplate c₁ q = promptTemplate c₂ q ↔ c₁ = c₂ := by
  constructor
  · intro h
    have hd := congrArg String.data h
    simp only [promptTemplate, data_append] at hd
    have h1 := List.append_cancel_right hd
    have h2 := List.append_cancel_right h1
    exact string_eq_of_data_eq (List.append_cancel_left h2)
  · intro h; rw [h]

/-- The test question used to instantiate the prompt-path theorems. -/
def qC : String := "员工试用期是多久？"

/-- The documents `retrieve envC dbC qC 3` returns (both entries of `dbC`,
ascending by distance). -/
def docsC : List RetrievedDoc :=
  [ { page_content := "试用期为三个月。"
      metadata := { «条款» := "第一条", «来源» := "员工手册", distance := 225 } }
  , { page_content := "工作时间每周五天。"
      metadata := { «条款» := "第二条", «来源» := "员工手册", distance := 324 } } ]

theorem retrieve_envC_qC : retrieve envC dbC qC 3 = Except.ok docsC := by
  rfl

/-- C4 (counterexample): at a concrete index and question, the prompt the
evaluation harness builds differs from the prompt the interactive loop
builds — `generate_answers` joins the raw passage texts without the
`【identifier】` tags that `main` prepends. -/
theorem c4_counterexample : evalPromptOf envC dbC qC ≠ interactivePromptOf envC dbC qC := by
  have he : evalPromptOf envC dbC qC = Except.ok (composePromptTest docsC qC) := by
    simp [evalPromptOf, retrieve_envC_qC]
  have hi : interactivePromptOf envC dbC qC = Except.ok (composePromptMain docsC qC) := by
    simp [interactivePromptOf, retrieve_envC_qC]
  intro hcontra
  rw [he, hi] at hcontra
  exact absurd (Except.ok.inj hcontra) (by decide)

/-- C4 (amended): the evaluation harness runs the same Retriever with fixed
`k = 3` and substitutes into the same two-field template as the interactive
path, but builds its context from the raw passage texts without the
`【identifier】` tags; for any retrieval result, its prompt equals the
interactive loop's exactly when the untagged and tagged context strings
coincide. -/
theorem c4_amended_eval_vs_interactive_prompt {V : Type} (env : Env V)
    (db : Collection V) (q : String) (docs : List RetrievedDoc)
    (h : retrieve env db q 3 = Except.ok docs) :
    evalPromptOf env db q =
      Except.ok (promptTemplate (joinSep "\n\n" (docs.map (fun d => d.page_content))) q)
    ∧ interactivePromptOf env db q =
      Except.ok (promptTemplate (joinSep "\n\n" (docs.map tagPassage)) q)
    ∧ (evalPromptOf env db q = interactivePromptOf env db q ↔
        joinSep "\n\n" (docs.map (fun d => d.page_content)) =
          joinSep "\n\n" (docs.map tagPassage)) := by
  have he : evalPromptOf env db q = Except.ok (composePromptTest docs q) := by
    simp [evalPromptOf, h]
  have hi : interactivePromptOf env db q = Except.ok (composePromptMain docs q) := by
    simp [interactivePromptOf, h]
  refine ⟨by simpa [composePromptTest] using he,
          by simpa [composePromptMain] using hi, ?_⟩
  rw [he, hi]
  constructor
  · intro hok
    exact (promptTemplate_inj_context _ _ q).mp
      (by simpa [composePromptTest, composePromptMain] using Except.ok.inj hok)
  · intro hctx
    simp only [composePromptTest, composePromptMain]
    rw [hctx]

theorem c4_amended_eval_vs_interactive_prompt_witness :
    evalPromptOf envC dbC qC =
      Except.ok (promptTemplate (joinSep "\n\n" (docsC.map (fun d => d.page_content))) qC)
    ∧ interactivePromptOf envC dbC qC =
      Except.ok (promptTemplate (joinSep "\n\n" (docsC.map tagPassage)) qC)
    ∧ (evalPromptOf envC dbC qC = interactivePromptOf envC dbC qC ↔
        joinSep "\n\n" (docsC.map (fun d => d.page_content)) =
          joinSep "\n\n" (docsC.map tagPassage)) :=
  c4_amended_eval_vs_interactive_prompt envC dbC qC docsC retrieve_envC_qC

/- ### C6: the interactive prompt contains every passage and the question -/

theorem joinSep_infix_of_mem (sep : String) :
    ∀ (l : List String), ∀ x ∈ l, x.data <:+: (joinSep sep l).data := by
  intro l
  induction l with
  | nil => intro x hx; cases hx
  | cons a as ih =>
      intro x hx
      cases as with
      | nil =>
          have hxa : x = a := by simpa using hx
          subst hxa
          exact List.infix_rfl
      | cons b bs =>
          rcases List.mem_cons.mp hx with rfl | hmem
          · refine ⟨[], (sep.data ++ (joinSep sep (b :: bs)).data), ?_⟩
            simp [joinSep, data_append, List.append_assoc]
          · have hsuffix : (joinSep sep (b :: bs)).data <:+
                (joinSep sep (a :: b :: bs)).data :=
              ⟨a.data ++ sep.data, by simp [joinSep, data_append, List.append_assoc]⟩
            exact (ih x hmem).trans hsuffix.isInfix

theorem context_infix_prompt (context q : String) :
    context.data <:+: (promptTemplate context q).data :=
  ⟨("根据上下文回答问题：\n\n上下文：\n" : String).data,
   ("\n\n问题：" : String).data ++ q.data,
   by simp [promptTemplate, data_append, List.append_assoc]⟩

theorem question_infix_prompt (context q : String) :
    q.data <:+: (promptTemplate context q).data :=
  ⟨(("根据上下文回答问题：\n\n上下文：\n" : String) ++ context ++ "\n\n问题：").data, [],
   by simp [promptTemplate, data_append, List.append_assoc]⟩

theorem id_infix_tagPassage (d : RetrievedDoc) :
    d.metadata.«条款».data <:+: (tagPassage d).data :=
  ⟨("【" : String).data, ("】" : String).data ++ d.page_content.data,
   by simp [tagPassage, data_append, List.append_assoc]⟩

theorem text_infix_tagPassage (d : RetrievedDoc) :
    d.page_content.data <:+: (tagPassage d).data :=
  ⟨(("【" : String) ++ d.metadata.«条款» ++ "】").data, [],
   by simp [tagPassage, data_append, List.append_assoc]⟩

/-- C6: for every non-empty list of retrieved passages and every question,
the interactive Answer composer's rendered prompt contains every passage's
`【identifier】text` rendering — hence every passage identifier and every
passage text — and the literal question string, as contiguous substrings. -/
theorem c6_prompt_contains_passages_and_question (docs : List RetrievedDoc)
    (q : String) (hne : docs ≠ []) :
    (∀ d ∈ docs,
        (tagPassage d).data <:+: (composePromptMain docs q).data
        ∧ d.metadata.«条款».data <:+: (composePromptMain docs q).data
        ∧ d.page_content.data <:+: (composePromptMain docs q).data)
    ∧ q.data <:+: (composePromptMain docs q).data := by
  have hctx : ∀ d ∈ docs,
      (tagPassage d).data <:+: (joinSep "\n\n" (docs.map tagPassage)).data := by
    intro d hd
    exact joinSep_infix_of_mem _ _ _ (List.mem_map_of_mem tagPassage hd)
  have hprompt : (joinSep "\n\n" (docs.map tagPassage)).data <:+:
      (composePromptMain docs q).data := by
    simpa [composePromptMain] using
      context_infix_prompt (joinSep "\n\n" (docs.map tagPassage)) q
  refine ⟨fun d hd => ?_, ?_⟩
  · have htag := (hctx d hd).trans hprompt
    exact ⟨htag, (id_infix_tagPassage d).trans htag,
           (text_infix_tagPassage d).trans htag⟩
  · simpa [composePromptMain] using
      question_infix_prompt (joinSep "\n\n" (docs.map tagPassage)) q

theorem c6_prompt_contains_passages_and_question_witness :
    docsC ≠ [] ∧
    ((∀ d ∈ docsC,
        (tagPassage d).data <:+: (composePromptMain docsC qC).data
        ∧ d.metadata.«条款».data <:+: (composePromptMain docsC qC).data
        ∧ d.page_content.data <:+: (composePromptMain docsC qC).data)
    ∧ qC.data <:+: (composePromptMain docsC qC).data) :=
  ⟨by decide, c6_prompt_contains_passages_and_question docsC qC (by decide)⟩

/- ### The interactive CLI loop (`main.py`) -/

/-- Python `str.strip()` on the input line: drop leading and trailing
whitespace. -/
def pyStrip (s : String) : String :=
  String.mk (((s.data.dropWhile Char.isWhitespace).reverse.dropWhile
    Char.isWhitespace).reverse)

/-- Python `str.lower()` (ASCII case folding suffices for the keywords the
loop compares against). -/
def pyLower (s : String) : String :=
  String.mk (s.data.map Char.toLower)

/-- The termination keywords `['quit', 'exit', '退出', 'q']`. -/
def quitKeywords : List String := ["quit", "exit", "退出", "q"]

/-- Observable events of one loop iteration. -/
inductive LoopEvent where
  | quit
  | emptyReprompt
  | answered (question answer : String)
  | errorShown (question message : String)
  deriving DecidableEq

/-- The body of the `try`/`except` block for one question: one call into the
retrieve/compose/LLM pipeline; an `ok` answer is printed, an `error` is
caught and shown as the diagnostic message. -/
def processQuestion (pipeline : String → Except String String)
    (query : String) : LoopEvent :=
  match pipeline query with
  | Except.ok answer => LoopEvent.answered query answer
  | Except.error e => LoopEvent.errorShown query e

/-- The `while True` loop of `main` over a finite stdin: strip the line;
a quit keyword (case-insensitive) breaks; an empty line re-prompts and
`continue`s; anything else is handed to the pipeline, whose failure is
caught so the loop proceeds to the next line. -/
def runLoop (pipeline : String → Except String String) :
    List String → List LoopEvent
  | [] => []
  | line :: rest =>
      let query := pyStrip line
      if pyLower query ∈ quitKeywords then
        [LoopEvent.quit]
      else if query = "" then
        LoopEvent.emptyReprompt :: runLoop pipeline rest
      else
        processQuestion pipeline query :: runLoop pipeline rest

/-- C7: a failure raised anywhere in the retrieve/compose/LLM-call step for
a question is caught at the loop boundary: the loop emits exactly one
user-visible diagnostic for that question (one pipeline call, no retry) and
continues with the remaining input lines instead of terminating. -/
theorem c7_loop_catches_pipeline_failure
    (pipeline : String → Except String String) (line : String)
    (rest : List String) (e : String)
    (hkw : pyLower (pyStrip line) ∉ quitKeywords)
    (hne : pyStrip line ≠ "")
    (herr : pipeline (pyStrip line) = Except.error e) :
    runLoop pipeline (line :: rest) =
      LoopEvent.errorShown (pyStrip line) e :: runLoop pipeline rest := by
  simp [runLoop, hkw, hne, processQuestion, herr]

/-- A pipeline that always fails, to instantiate the loop theorems. -/
def failingPipeline : String → Except String String :=
  fun _ => Except.error "API key invalid"

theorem c7_loop_catches_pipeline_failure_witness :
    runLoop failingPipeline ["试用期多久", "工作时间"] =
      LoopEvent.errorShown "试用期多久" "API key invalid" ::
        runLoop failingPipeline ["工作时间"] :=
  c7_loop_catches_pipeline_failure failingPipeline "试用期多久" ["工作时间"]
    "API key invalid" (by decide) (by decide) rfl

/-- C8: for every line read by the interactive loop: input equal
(case-insensitively, after stripping) to one of `quit`/`exit`/`q`/`退出`
terminates the loop; otherwise empty (or whitespace-only) input re-prompts
without any pipeline work; any other input is processed as a question. -/
theorem c8_loop_input_classification
    (pipeline : String → Except String String) (line : String)
    (rest : List String) :
    (pyLower (pyStrip line) ∈ quitKeywords →
        runLoop pipeline (line :: rest) = [LoopEvent.quit])
    ∧ (pyLower (pyStrip line) ∉ quitKeywords → pyStrip line = "" →
        runLoop pipeline (line :: rest) =
          LoopEvent.emptyReprompt :: runLoop pipeline rest)
    ∧ (pyLower (pyStrip line) ∉ quitKeywords → pyStrip line ≠ "" →
        runLoop pipeline (line :: rest) =
          processQuestion pipeline (pyStrip line) :: runLoop pipeline rest) := by
  refine ⟨fun hkw => ?_, fun hkw hemp => ?_, fun hkw hne => ?_⟩
  · simp [runLoop, hkw]
  · simp [runLoop, hemp]
    decide
  · simp [runLoop, hkw, hne]

theorem c8_loop_input_classification_witness :
    (runLoop failingPipeline ["  QuIt  ", "后面"] = [LoopEvent.quit])
    ∧ (runLoop failingPipeline ["   ", "后面"] =
        LoopEvent.emptyReprompt :: runLoop failingPipeline ["后面"])
    ∧ (runLoop failingPipeline ["试用期多久", "后面"] =
        processQuestion failingPipeline "试用期多久" :: runLoop failingPipeline ["后面"]) :=
  ⟨(c8_loop_input_classification failingPipeline "  QuIt  " ["后面"]).1 (by decide),
   (c8_loop_input_classification failingPipeline "   " ["后面"]).2.1 (by decide) (by decide),
   (c8_loop_input_classification failingPipeline "试用期多久" ["后面"]).2.2 (by decide) (by decide)⟩

/- ### C2: build_vector_db is a full replace -/

theorem collectEmbeddings_eq_some {V : Type} :
    ∀ (docs : List (Document V)), (∀ d ∈ docs, (d.metadata.embedding).isSome) →
      ∃ es : List V, collectEmbeddings docs = some es ∧ es.length = docs.length ∧
        ∀ i (hd : i < docs.length) (he : i < es.length),
          (docs.get ⟨i, hd⟩).metadata.embedding = some (es.get ⟨i, he⟩) := by
  intro docs
  induction docs with
  | nil =>
      intro _
      exact ⟨[], rfl, rfl, fun i hd => absurd hd (Nat.not_lt_zero i)⟩
  | cons d ds ih =>
      intro h
      rcases Option.isSome_iff_exists.mp (h d (List.mem_cons_self d ds)) with ⟨e, he⟩
      rcases ih (fun x hx => h x (List.mem_cons_of_mem d hx)) with ⟨es, hes, hlen, hidx⟩
      refine ⟨e :: es, ?_, by simp [hlen], ?_⟩
      · simp [collectEmbeddings, he, hes]
      · intro i hd hlt
        cases i with
        | zero => simpa using he
        | succ j =>
            exact hidx j (Nat.lt_of_succ_lt_succ hd) (Nat.lt_of_succ_lt_succ hlt)

/-- C2: for every prior client state and list of embedded units,
`build_vector_db` succeeds (deleting any prior `employee_handbook`
collection, its absence not being an error), and the collection registered
under that name afterwards contains exactly the input units — synthetic ids
`doc_0`, `doc_1`, …, original text, the unit's vector, and its metadata with
the embedding excluded — no more and no fewer, independent of any previous
build. -/
theorem c2_build_vector_db_full_replace {V : Type} (store : Store V)
    (documents : List (Document V))
    (h : ∀ d ∈ documents, (d.metadata.embedding).isSome) :
    ∃ st c, build_vector_db store documents = some (st, c)
      ∧ c.name = collection_name
      ∧ st collection_name = some c
      ∧ c.entries.length = documents.length
      ∧ ∀ i (hd : i < documents.length) (he : i < c.entries.length),
          (c.entries.get ⟨i, he⟩).id = "doc_" ++ toString i
          ∧ (c.entries.get ⟨i, he⟩).document = (documents.get ⟨i, hd⟩).page_content
          ∧ some (c.entries.get ⟨i, he⟩).embedding = (documents.get ⟨i, hd⟩).metadata.embedding
          ∧ (c.entries.get ⟨i, he⟩).metadata = dropEmbedding (documents.get ⟨i, hd⟩).metadata := by
  rcases collectEmbeddings_eq_some documents h with ⟨es, hes, hlen, hidx⟩
  refine
    ⟨fun n => if n = collection_name then some
        { name := collection_name
          entries := addRecords
            ((List.range documents.length).map (fun i => "doc_" ++ toString i))
            (documents.map (fun doc => doc.page_content)) es
            (documents.map (fun doc => dropEmbedding doc.metadata)) }
      else delete_collection store collection_name n,
     { name := collection_name
       entries := addRecords
         ((List.range documents.length).map (fun i => "doc_" ++ toString i))
         (documents.map (fun doc => doc.page_content)) es
         (documents.map (fun doc => dropEmbedding doc.metadata)) },
     ?_, rfl, ?_, ?_, ?_⟩
  · unfold build_vector_db
    rw [hes]
  · simp
  · simp [addRecords, hlen]
  · intro i hd he
    have hids : i < ((List.range documents.length).map
        (fun j => "doc_" ++ toString j)).length := by simpa using hd
    have htxt : i < (documents.map (fun doc => doc.page_content)).length := by
      simpa using hd
    have hes2 : i < es.length := by omega
    have hmet : i < (documents.map (fun doc => dropEmbedding doc.metadata)).length := by
      simpa using hd
    have hidx2 : documents[i].metadata.embedding = some es[i] := by
      simpa [List.get_eq_getElem] using hidx i hd hes2
    refine ⟨?_, ?_, ?_, ?_⟩ <;>
      simp [addRecords, List.get_eq_getElem, List.getElem_map, List.getElem_zip,
        List.getElem_range, hidx2]

/-- Concrete embedded documents for instantiating the index-build theorem. -/
def embeddedDocsC : List (Document Int) :=
  [ { page_content := "试用期为三个月。"
      metadata := { «条款» := some "第一条", «来源» := some sourceLabel, embedding := some 24 } }
  , { page_content := "工作时间每周五天。"
      metadata := { «条款» := some "第二条", «来源» := some sourceLabel, embedding := some 27 } } ]

/-- A client state with no collections. -/
def emptyStore : Store Int := fun _ => none

theorem c2_build_vector_db_full_replace_witness :
    ∃ st c, build_vector_db emptyStore embeddedDocsC = some (st, c)
      ∧ c.name = collection_name
      ∧ st collection_name = some c
      ∧ c.entries.length = embeddedDocsC.length
      ∧ ∀ i (hd : i < embeddedDocsC.length) (he : i < c.entries.length),
          (c.entries.get ⟨i, he⟩).id = "doc_" ++ toString i
          ∧ (c.entries.get ⟨i, he⟩).document = (embeddedDocsC.get ⟨i, hd⟩).page_content
          ∧ some (c.entries.get ⟨i, he⟩).embedding = (embeddedDocsC.get ⟨i, hd⟩).metadata.embedding
          ∧ (c.entries.get ⟨i, he⟩).metadata = dropEmbedding (embeddedDocsC.get ⟨i, hd⟩).metadata :=
  c2_build_vector_db_full_replace emptyStore embeddedDocsC (by decide)

/- ### C10: the retriever's hardcoded query-embedding model -/

/-- The model identifier `main.py` (and `test.py`) pass to `embed` at
index-build time, the same literal `retrieve` hardcodes at query time. -/
def mainEmbedModelPath : String := "BAAI/bge-large-zh-v1.5"

/-- C10 (implicit): `retrieve` always embeds the query with the fixed
hardcoded model identifier — it coincides with the generalized retriever
instantiated at `mainEmbedModelPath`, the same identifier `main.py` passes
to `embed` at build time and `embed`'s own default — and its behavior
depends on the embedding backend only through that one identifier, so the
same-model-at-build-and-query precondition holds by construction. -/
theorem c10_retrieve_uses_fixed_model {V : Type} :
    (∀ (env : Env V) (db : Collection V) (q : String) (k : Int),
        retrieve env db q k = retrieveWithModel env mainEmbedModelPath db q k)
    ∧ (∀ (env : Env V) (docs : List (Document V)),
        embed env docs = embed env docs mainEmbedModelPath)
    ∧ (∀ (env₁ env₂ : Env V) (db : Collection V) (q : String) (k : Int),
        env₁.distance = env₂.distance →
        env₁.embedModel mainEmbedModelPath = env₂.embedModel mainEmbedModelPath →
        retrieve env₁ db q k = retrieve env₂ db q k) := by
  refine ⟨fun env db q k => rfl, fun env docs => rfl, ?_⟩
  intro env₁ env₂ db q k hdist hmodel
  simp only [retrieve, collection_query]
  rw [hdist, show env₁.embedModel "BAAI/bge-large-zh-v1.5" =
    env₂.embedModel "BAAI/bge-large-zh-v1.5" from hmodel]

/-- An embedding backend that agrees with `envC` on the fixed model name but
differs on every other model identifier. -/
def envD : Env Int :=
  { embedModel := fun m t =>
      if m = "BAAI/bge-large-zh-v1.5" then Int.ofNat t.length else 0
    distance := fun a b => (((a - b) * (a - b) : Int) : ℚ) }

theorem c10_retrieve_uses_fixed_model_witness :
    retrieve envC dbC qC 3 = retrieve envD dbC qC 3 :=
  (c10_retrieve_uses_fixed_model (V := Int)).2.2 envC envD dbC qC 3 rfl
    (funext fun t => rfl)

end RAGModel
